import Mathlib

/-!
# Verification of the diaper-ai-web case handoff and reconciliation protocol

Shallow embedding of `src/main.py`: a filesystem-backed queue of case records
moved between partitions (`pending`, `processing`, `error`), a permanent
PII-free `stubs` partition, and an `uploads` blob directory.

Modelling conventions:
* Each storage directory holding one JSON file (or blob) per key is embedded
  as an association list `List (String × _)`; writing a file overwrites
  (`insertA` erases the key first), deleting removes all entries for the key
  (`eraseA`), and a missing file is a `none` lookup.
* The association list for `pending` is kept in mtime-ascending order:
  `save_json` creates a fresh file (newest mtime), so `insertA` appends at the
  end.  The `glob` + `sort(key=getmtime)` listing taken by `claim_case`
  is therefore `s.pending.map Prod.fst`.  (After an `abort_case` the real
  file keeps its original mtime because `os.rename` preserves it; none of the
  verified properties depend on the exact position, so the model appends.)
* `os.rename(src, dst)` raises `OSError` exactly when `src` no longer exists;
  `try_lock` returns `none` in that case and leaves the state unchanged,
  which is the rename-as-mutex semantics the code relies on.
* Timestamps (`datetime.now().isoformat(...)`) and the freshly drawn
  `uuid4` identifiers are inputs from the environment, passed as explicit
  `String` arguments.
* The `ai_prob` float payload is embedded as `Rat`: the program only stores
  and re-renders the value, no float arithmetic occurs, so an exact stand-in
  with decidable equality is faithful for every property considered here.
* Image blobs are byte lists; the base64 transport encoding applied by
  `claim_case` is an injective re-encoding of those bytes and is left out of
  the model (the `ok` result carries the raw bytes).
-/

namespace DiaperAI

/-- Configured upload ceiling, `MAX_UPLOAD_BYTES` (line 42, default `8000000`;
the environment override is irrelevant to the properties proved here). -/
def MAX_UPLOAD_BYTES : Nat := 8000000

/-- Configured claim-transfer ceiling, `MAX_CLAIM_IMAGE_BYTES` (line 43,
default `8000000`). -/
def MAX_CLAIM_IMAGE_BYTES : Nat := 8000000

/-- A full case record as written by `submit_case` (lines 192-201): contains
the personal fields `name`, `phone`, `line_id`. -/
structure Record where
  id : String
  receipt : String
  created_at : String
  name : String
  phone : String
  line_id : String
  image_filename : String
  status : String
deriving Repr, DecidableEq

/-- A PII-free stub as written by `submit_case` (lines 205-214) and mutated by
`update_stub_status` / `update_ai_result`.  The optional diagnostic fields
default to absent (`update_stub_status` merges keyword fields into the dict). -/
structure Stub where
  id : String
  receipt : String
  created_at : String
  status : String
  ai_level : Option Int
  ai_prob : Option Rat
  ai_suggestion : Option String
  note : Option String := none
  processing_at : Option String := none
  updated_at : Option String := none
  error_at : Option String := none
deriving Repr, DecidableEq

/-- Look up the value stored for key `k` (reading the file `k.json`, `none`
when the file is absent). -/
def lookupA {α : Type} : List (String × α) → String → Option α
  | [], _ => none
  | p :: rest, k => if p.1 = k then some p.2 else lookupA rest k

/-- Delete every entry for key `k` (removing the file `k.json`). -/
def eraseA {α : Type} : List (String × α) → String → List (String × α)
  | [], _ => []
  | p :: rest, k => if p.1 = k then eraseA rest k else p :: eraseA rest k

/-- Write value `v` under key `k`, overwriting any previous file; the fresh
file is appended at the end of the mtime order. -/
def insertA {α : Type} (l : List (String × α)) (k : String) (v : α) :
    List (String × α) :=
  eraseA l k ++ [(k, v)]

/-- The whole on-disk state: the four record/stub partitions of `DIRS`
(lines 50-56) plus the `uploads` blob directory (filename ↦ bytes). -/
structure St where
  uploads : List (String × List Nat)
  pending : List (String × Record)
  processing : List (String × Record)
  error : List (String × Record)
  stubs : List (String × Stub)
deriving Repr, DecidableEq

/-- `update_stub_status(case_id, **fields)` (lines 112-121): when the stub
file is absent the function returns without effect; otherwise the keyword
fields (here: the update function `f`) are merged into the stub and it is
saved back.  Exceptions during the read-modify-write are logged and swallowed;
the model has no failing reads, so only the absent-file early return appears. -/
def update_stub_status (s : St) (case_id : String) (f : Stub → Stub) : St :=
  match lookupA s.stubs case_id with
  | none => s
  | some stub => { s with stubs := insertA s.stubs case_id (f stub) }

/-- Python's `str.lower`, written over the character list. -/
def strLower (s : String) : String := String.mk (s.toList.map Char.toLower)

/-- Python's `str.endswith`, written over the character lists. -/
def strEndsWith (s suf : String) : Bool :=
  decide (s.toList.drop (s.toList.length - suf.toList.length) = suf.toList)

/-- Python's `str.startswith`, written over the character lists (used to
state "some blob for this `id` remains", blobs being named `{id}{ext}`). -/
def strStartsWith (s pre : String) : Bool :=
  decide (s.toList.take pre.toList.length = pre.toList)

/-- `guess_ext` (lines 79-88). -/
def guess_ext (filename content_type : String) : String :=
  let filename := strLower filename
  let content_type := strLower content_type
  if strEndsWith filename ".png" || content_type = "image/png" then ".png"
  else if strEndsWith filename ".jpeg" || content_type = "image/jpeg" then ".jpg"
  else ".jpg"

/-- The characters after the last `'.'` of the list, when a dot occurs. -/
def afterLastDot : List Char → Option (List Char)
  | [] => none
  | c :: rest =>
    match afterLastDot rest with
    | some e => some e
    | none => if c = '.' then some rest else none

/-- The extension part of `os.path.splitext` for the filenames this program
builds (`{uuid}{ext}`; the leading-dot special case of `splitext` cannot
arise for them). -/
def splitextExt (s : String) : String :=
  match afterLastDot s.toList with
  | some e => String.mk ('.' :: e)
  | none => ""

/-- `os.path.splitext(img_path)[1].lower() or ".jpg"` (line 321). -/
def image_ext_of (img_filename : String) : String :=
  let e := strLower (splitextExt img_filename)
  if e = "" then ".jpg" else e

/-- Whether the size guard of `submit_case` (lines 163-168) would raise the
`413` rejection: `if image.size and int(image.size) > MAX_UPLOAD_BYTES`.
The guard sits inside `try: ... except Exception: pass`, and FastAPI's
`HTTPException` derives from `Exception`, so the raised rejection is caught
by the `pass` handler and discarded: the guard's outcome never affects
control flow, which is why `submit_case` below ignores it. -/
def size_guard_fires (size : Option Nat) : Bool :=
  match size with
  | some n => decide (0 < n) && decide (n > MAX_UPLOAD_BYTES)
  | none => false

/-- `submit_case` (lines 145-217).  `case_id`, `receipt` and `created_at`
are the freshly drawn `uuid4` values and timestamp.  The size guard is
swallowed by its own `except Exception: pass` (see `size_guard_fires`), so
every submission proceeds: the blob is written to `uploads`, the full record
(with personal data) to `pending`, the PII-free stub to `stubs`, and the
handler returns the `302` redirect to `/result/{case_id}`. -/
def submit_case (s : St) (name phone line_id : String)
    (upload_filename content_type : String) (size : Option Nat)
    (bytes : List Nat) (case_id receipt created_at : String) : String × St :=
  let _guard := size_guard_fires size
  let ext := guess_ext upload_filename content_type
  let img_filename := case_id ++ ext
  let record : Record :=
    { id := case_id, receipt := receipt, created_at := created_at,
      name := name, phone := phone, line_id := line_id,
      image_filename := img_filename, status := "pending" }
  let stub : Stub :=
    { id := case_id, receipt := receipt, created_at := created_at,
      status := "pending", ai_level := none, ai_prob := none,
      ai_suggestion := none }
  ("/result/" ++ case_id,
    { s with uploads := insertA s.uploads img_filename bytes,
             pending := insertA s.pending case_id record,
             stubs := insertA s.stubs case_id stub })

/-- Result of a `claim_case` call (the JSON bodies of lines 248-249, 283-288,
304-309, 317-322 and 334).  `err` carries the message, `case_id` and
`receipt` fields of the quarantine responses; `ok` carries the full record,
the blob bytes (base64 in transport) and the inferred extension. -/
inductive ClaimResult where
  | empty
  | err (message : String) (case_id : String) (receipt : String)
  | ok (data : Record) (image : List Nat) (image_ext : String)
deriving Repr, DecidableEq

/-- The atomic `os.rename(target_file, dest_path)` of lines 256-261: succeeds
(moving the record from `pending` to `processing` and returning it) exactly
when the source file still exists; a concurrent winner's earlier rename makes
it raise `OSError`, modelled as `none` with the state unchanged.  This is the
sole mutual-exclusion primitive of the system. -/
def try_lock (s : St) (case_id : String) : Option Record × St :=
  match lookupA s.pending case_id with
  | none => (none, s)
  | some rec =>
    (some rec,
      { s with pending := eraseA s.pending case_id,
               processing := insertA s.processing case_id rec })

/-- The body of `claim_case` after a successful lock (lines 263-322): load
the record, check the blob.  Blob missing (lines 270-288): mark the stub
`error` with a note, quarantine `processing → error`, return the error
result with `case_id` and `receipt`.  Blob too large (lines 291-309): same
with a distinct note.  Otherwise (lines 311-322): read the blob, mark the
stub `processing`, return the full record with the encoded blob.  The
`except` branch of lines 324-332 (read failure → quarantine with a generic
note) is unreachable in the model, where no read fails. -/
def claim_locked (s : St) (case_id : String) (rec : Record) (now : String) :
    ClaimResult × St :=
  match lookupA s.uploads rec.image_filename with
  | none =>
    let s1 := update_stub_status s case_id fun st =>
      { st with status := "error", note := some "Image missing (quarantined)",
                error_at := some now }
    let s2 := { s1 with processing := eraseA s1.processing case_id,
                        error := insertA s1.error case_id rec }
    (.err "Image file missing" case_id rec.receipt, s2)
  | some bytes =>
    if bytes.length > MAX_CLAIM_IMAGE_BYTES then
      let s1 := update_stub_status s case_id fun st =>
        { st with status := "error", note := some "Image too large (quarantined)",
                  error_at := some now }
      let s2 := { s1 with processing := eraseA s1.processing case_id,
                          error := insertA s1.error case_id rec }
      (.err "Image too large" case_id rec.receipt, s2)
    else
      let s1 := update_stub_status s case_id fun st =>
        { st with status := "processing", processing_at := some now }
      (.ok rec bytes (image_ext_of rec.image_filename), s1)

/-- The claim loop of `claim_case` (lines 244-334): `for _ in range(5)` over
the mtime-sorted snapshot `cands` of the pending listing.  An empty candidate
list returns `{"status": "empty"}` (line 249); a failed rename (lost race,
`OSError`) drops the head candidate and continues (lines 258-261); a
successful rename proceeds to `claim_locked`; exhausting the budget returns
`{"status": "empty"}` (line 334). -/
def claim_case_loop : St → List String → String → Nat → ClaimResult × St
  | s, _, _, 0 => (.empty, s)
  | s, [], _, _ + 1 => (.empty, s)
  | s, c :: rest, now, fuel + 1 =>
    match try_lock s c with
    | (none, _) => claim_case_loop s rest now fuel
    | (some rec, s1) => claim_locked s1 c rec now

/-- `claim_case` (lines 236-334): take the mtime-ascending pending listing
(lines 244-245) and run the bounded claim loop over it. -/
def claim_case (s : St) (now : String) : ClaimResult × St :=
  claim_case_loop s (s.pending.map Prod.fst) now 5

/-- Result of `confirm_case`: the `{"status": "ok", ...}` bodies of lines
350 and 374, or the `HTTPException(400, "Receipt mismatch")` of line 355. -/
inductive ConfirmResult where
  | ok (message : String)
  | receiptMismatch
deriving Repr, DecidableEq

/-- `confirm_case` (lines 336-374).  No processing record → success with
"Already deleted or not found" and no side effect (lines 349-350; the receipt
is never compared on this path).  Receipt mismatch → `400`, no side effect.
Otherwise delete the referenced blob (if present), delete the processing
record, set the stub to `data_purged`. -/
def confirm_case (s : St) (case_id receipt now : String) : ConfirmResult × St :=
  match lookupA s.processing case_id with
  | none => (.ok "Already deleted or not found", s)
  | some rec =>
    if rec.receipt ≠ receipt then (.receiptMismatch, s)
    else
      let s1 := { s with uploads := eraseA s.uploads rec.image_filename,
                         processing := eraseA s.processing case_id }
      let s2 := update_stub_status s1 case_id fun st =>
        { st with status := "data_purged", updated_at := some now }
      (.ok "Data purged", s2)

/-- Result of `update_ai_result`: success, `404` stub not found, or `401`
receipt mismatch. -/
inductive UpdateResult where
  | ok
  | stubNotFound
  | receiptMismatch
deriving Repr, DecidableEq

/-- `update_ai_result` (lines 376-409): requires the stub to exist and its
stored receipt to match, then unconditionally overwrites the three AI result
fields, sets `status="done"` and stamps `updated_at`. -/
def update_ai_result (s : St) (id receipt : String) (ai_level : Int)
    (ai_prob : Rat) (ai_suggestion : String) (now : String) :
    UpdateResult × St :=
  match lookupA s.stubs id with
  | none => (.stubNotFound, s)
  | some stub =>
    if stub.receipt ≠ receipt then (.receiptMismatch, s)
    else
      let stub' := { stub with ai_level := some ai_level,
                               ai_prob := some ai_prob,
                               ai_suggestion := some ai_suggestion,
                               status := "done", updated_at := some now }
      (.ok, { s with stubs := insertA s.stubs id stub' })

/-- Result of `abort_case`: success, `404` not in processing, or `400`
receipt mismatch.  (The `500` of line 441 needs the second rename to fail,
which cannot happen in the model.) -/
inductive AbortResult where
  | ok (message : String)
  | notInProcessing
  | receiptMismatch
deriving Repr, DecidableEq

/-- `abort_case` (lines 411-441): requires a processing record with matching
receipt, renames it back `processing → pending` and sets the stub back to
`pending` with a diagnostic note. -/
def abort_case (s : St) (case_id receipt now : String) : AbortResult × St :=
  match lookupA s.processing case_id with
  | none => (.notInProcessing, s)
  | some rec =>
    if rec.receipt ≠ receipt then (.receiptMismatch, s)
    else
      let s1 := { s with processing := eraseA s.processing case_id,
                         pending := insertA s.pending case_id rec }
      let s2 := update_stub_status s1 case_id fun st =>
        { st with status := "pending",
                  note := some "Aborted by internal worker (retry scheduled)",
                  updated_at := some now }
      (.ok "Case moved back to pending", s2)

/-- A trace of interleaved rename attempts.  Every concurrent execution of
racing `claim_case` calls is, at the level of the atomic `os.rename`
operations, some serialization of the individual renames; `lockRace` replays
one such serialization, recording for each attempted `case_id` whether its
rename succeeded. -/
def lockRace : St → List String → List (String × Bool) × St
  | s, [] => ([], s)
  | s, c :: rest =>
    match try_lock s c with
    | (r, s1) =>
      match lockRace s1 rest with
      | (tr, s2) => ((c, r.isSome) :: tr, s2)

/-- The case a `claim_case` result is about: the `case_id` field of a
quarantine response, or `data["id"]` of a full response.  `empty` names no
case. -/
def claimedId : ClaimResult → Option String
  | .empty => none
  | .err _ case_id _ => some case_id
  | .ok rec _ _ => some rec.id

/-- One protocol operation, with all environment inputs (fresh ids,
timestamps, the snapshot listing a claim call starts from) made explicit. -/
inductive Op where
  | submit (name phone line_id upload_filename content_type : String)
      (size : Option Nat) (bytes : List Nat)
      (case_id receipt created_at : String)
  | claim (cands : List String) (now : String)
  | confirm (case_id receipt now : String)
  | updateAI (id receipt : String) (ai_level : Int) (ai_prob : Rat)
      (ai_suggestion : String) (now : String)
  | abort (case_id receipt now : String)

/-- The state after one operation (results discarded).  A `claim` op runs the
loop over the snapshot it carries, which may be stale (taken before other
workers' renames), exactly as in the code. -/
def applyOp (s : St) : Op → St
  | .submit name phone line_id fn ct size bytes case_id receipt created_at =>
    (submit_case s name phone line_id fn ct size bytes case_id receipt
      created_at).2
  | .claim cands now => (claim_case_loop s cands now 5).2
  | .confirm case_id receipt now => (confirm_case s case_id receipt now).2
  | .updateAI id receipt lvl prob sugg now =>
    (update_ai_result s id receipt lvl prob sugg now).2
  | .abort case_id receipt now => (abort_case s case_id receipt now).2

/-- The state after a sequence of operations. -/
def applyOps (s : St) (ops : List Op) : St := ops.foldl applyOp s

/-- Whether the operation is a submission under the identifier `c`.
Identifiers are fresh `uuid4` draws, so a replay of reachable behaviour never
re-submits an identifier that was already used. -/
def opSubmitsId (c : String) : Op → Bool
  | .submit _ _ _ _ _ _ _ case_id _ _ => case_id == c
  | _ => false

/-- Case `c` is out of the active queue: no pending and no processing record. -/
def NotActive (c : String) (s : St) : Prop :=
  lookupA s.pending c = none ∧ lookupA s.processing c = none

/-- The file-name key of each active record matches the `id` stored inside
it, as `submit_case` guarantees (it writes the record for `case_id` to
`pending_path(case_id)`). -/
def PartWF (s : St) : Prop :=
  (∀ p ∈ s.pending, (p : String × Record).2.id = p.1) ∧
  (∀ p ∈ s.processing, (p : String × Record).2.id = p.1)

/-- The stub for `c` exists and its three AI result fields are populated. -/
def aiSet (c : String) (s : St) : Prop :=
  ∃ st, lookupA s.stubs c = some st ∧ st.ai_level ≠ none ∧
    st.ai_prob ≠ none ∧ st.ai_suggestion ≠ none

/-- Whether the operation is an `update_ai_result` call. -/
def opIsUpdateAI : Op → Bool
  | .updateAI _ _ _ _ _ _ => true
  | _ => false

/-- The three AI result fields of an optional stub, for stating that an
operation leaves them untouched. -/
def aiFields : Option Stub → Option (Option Int × Option Rat × Option String) :=
  Option.map fun st => (st.ai_level, st.ai_prob, st.ai_suggestion)

/-- Number of successful renames for case `C` in a race trace. -/
def raceSuccesses (C : String) (tr : List (String × Bool)) : Nat :=
  tr.countP fun p => decide (p.1 = C) && p.2

/-- Empty storage, the state right after startup (lines 58-60). -/
def emptySt : St :=
  { uploads := [], pending := [], processing := [], error := [], stubs := [] }

/-- A sample case record, as `submit_case` would write it. -/
def cRec : Record :=
  { id := "c1", receipt := "r1", created_at := "t0", name := "Alice",
    phone := "555", line_id := "alice1", image_filename := "c1.jpg",
    status := "pending" }

/-- The stub written alongside `cRec`. -/
def cStub : Stub :=
  { id := "c1", receipt := "r1", created_at := "t0", status := "pending",
    ai_level := none, ai_prob := none, ai_suggestion := none }

/-- State with `cRec` waiting in `pending` together with its blob and stub. -/
def sPendingOnly : St :=
  { uploads := [("c1.jpg", [1, 2, 3])], pending := [("c1", cRec)],
    processing := [], error := [], stubs := [("c1", cStub)] }

/-- State with `cRec` claimed into `processing`, blob and stub present. -/
def sProc : St :=
  { uploads := [("c1.jpg", [1, 2, 3])], pending := [],
    processing := [("c1", cRec)], error := [], stubs := [("c1", cStub)] }

/-- State with `cRec` pending but its blob deleted out-of-band. -/
def sNoBlob : St :=
  { uploads := [], pending := [("c1", cRec)], processing := [], error := [],
    stubs := [("c1", cStub)] }

/-- State with `cRec` pending, blob present, but the stub file absent. -/
def sPendingNoStub : St :=
  { uploads := [("c1.jpg", [1, 2, 3])], pending := [("c1", cRec)],
    processing := [], error := [], stubs := [] }

/-- State with `cRec` in `processing`, blob present, stub file absent. -/
def sProcNoStub : St :=
  { uploads := [("c1.jpg", [1, 2, 3])], pending := [],
    processing := [("c1", cRec)], error := [], stubs := [] }

/-- A stub whose AI result fields are already populated.  (The probability
payload is opaque to the program — stored and echoed, never computed with —
so a whole-number `Rat` is as good a sample value as any.) -/
def cStubDone : Stub :=
  { id := "c1", receipt := "r1", created_at := "t0", status := "done",
    ai_level := some 1, ai_prob := some (87 : Rat),
    ai_suggestion := some "cream", updated_at := some "t1" }

/-- State holding only the populated stub `cStubDone`. -/
def sStubDone : St :=
  { uploads := [], pending := [], processing := [], error := [],
    stubs := [("c1", cStubDone)] }

/-! ## Association-list lemmas -/

theorem lookupA_eraseA_self {α : Type} (l : List (String × α)) (k : String) :
    lookupA (eraseA l k) k = none := by
  induction l with
  | nil => rfl
  | cons p rest ih =>
    by_cases h : p.1 = k
    · simpa [eraseA, h] using ih
    · simpa [eraseA, lookupA, h] using ih

theorem lookupA_eraseA_ne {α : Type} (l : List (String × α)) (k c : String)
    (h : c ≠ k) : lookupA (eraseA l k) c = lookupA l c := by
  have hkc : ¬ k = c := fun hh => h hh.symm
  induction l with
  | nil => rfl
  | cons p rest ih =>
    by_cases hp : p.1 = k
    · rw [eraseA, if_pos hp, ih, lookupA, hp, if_neg hkc]
    · rw [eraseA, if_neg hp, lookupA, lookupA]
      by_cases hc : p.1 = c
      · rw [if_pos hc, if_pos hc]
      · rw [if_neg hc, if_neg hc, ih]

theorem lookupA_eraseA_none {α : Type} (l : List (String × α)) (k c : String)
    (h : lookupA l c = none) : lookupA (eraseA l k) c = none := by
  by_cases hck : c = k
  · rw [hck]; exact lookupA_eraseA_self l k
  · rw [lookupA_eraseA_ne l k c hck]; exact h

theorem lookupA_append {α : Type} (l₁ l₂ : List (String × α)) (k : String) :
    lookupA (l₁ ++ l₂) k =
      match lookupA l₁ k with
      | some v => some v
      | none => lookupA l₂ k := by
  induction l₁ with
  | nil => simp [lookupA]
  | cons p rest ih =>
    by_cases h : p.1 = k
    · simp [lookupA, h]
    · simp [lookupA, h, ih]

theorem lookupA_insertA_self {α : Type} (l : List (String × α)) (k : String)
    (v : α) : lookupA (insertA l k v) k = some v := by
  rw [insertA, lookupA_append, lookupA_eraseA_self]
  simp [lookupA]

theorem lookupA_insertA_ne {α : Type} (l : List (String × α)) (k c : String)
    (v : α) (h : c ≠ k) : lookupA (insertA l k v) c = lookupA l c := by
  have hkc : ¬ k = c := fun hh => h hh.symm
  rw [insertA, lookupA_append]
  rw [lookupA_eraseA_ne l k c h]
  cases hl : lookupA l c with
  | some w => rfl
  | none => simp [lookupA, hkc]

theorem lookupA_insertA_none {α : Type} (l : List (String × α)) (k c : String)
    (v : α) (h : lookupA l c = none) (hck : c ≠ k) :
    lookupA (insertA l k v) c = none := by
  rw [lookupA_insertA_ne l k c v hck]; exact h

theorem mem_eraseA {α : Type} {p : String × α} {l : List (String × α)}
    {k : String} (h : p ∈ eraseA l k) : p ∈ l ∧ p.1 ≠ k := by
  induction l with
  | nil => cases h
  | cons q rest ih =>
    by_cases hq : q.1 = k
    · rw [eraseA] at h
      simp only [hq, if_pos] at h
      exact ⟨List.mem_cons_of_mem q (ih h).1, (ih h).2⟩
    · rw [eraseA] at h
      simp only [hq, if_neg, not_false_iff] at h
      rcases List.mem_cons.mp h with h1 | h2
      · exact ⟨List.mem_cons.mpr (Or.inl h1), h1 ▸ hq⟩
      · exact ⟨List.mem_cons_of_mem q (ih h2).1, (ih h2).2⟩

theorem mem_insertA {α : Type} {p : String × α} {l : List (String × α)}
    {k : String} {v : α} (h : p ∈ insertA l k v) : p = (k, v) ∨ p ∈ l := by
  rw [insertA] at h
  rcases List.mem_append.mp h with h1 | h2
  · exact Or.inr (mem_eraseA h1).1
  · exact Or.inl (List.mem_singleton.mp h2)

theorem lookupA_mem {α : Type} {l : List (String × α)} {k : String} {v : α}
    (h : lookupA l k = some v) : (k, v) ∈ l := by
  induction l with
  | nil => cases h
  | cons p rest ih =>
    rw [lookupA] at h
    by_cases hp : p.1 = k
    · simp only [hp, if_pos] at h
      cases h
      rcases p with ⟨a, b⟩
      cases hp
      exact List.mem_cons_self _ _
    · simp only [hp, if_neg, not_false_iff] at h
      exact List.mem_cons_of_mem p (ih h)

/-! ## `update_stub_status` and `try_lock` lemmas -/

theorem update_stub_status_uploads (s : St) (c : String) (f : Stub → Stub) :
    (update_stub_status s c f).uploads = s.uploads := by
  rw [update_stub_status]; cases lookupA s.stubs c <;> rfl

theorem update_stub_status_pending (s : St) (c : String) (f : Stub → Stub) :
    (update_stub_status s c f).pending = s.pending := by
  rw [update_stub_status]; cases lookupA s.stubs c <;> rfl

theorem update_stub_status_processing (s : St) (c : String) (f : Stub → Stub) :
    (update_stub_status s c f).processing = s.processing := by
  rw [update_stub_status]; cases lookupA s.stubs c <;> rfl

theorem update_stub_status_error (s : St) (c : String) (f : Stub → Stub) :
    (update_stub_status s c f).error = s.error := by
  rw [update_stub_status]; cases lookupA s.stubs c <;> rfl

theorem update_stub_status_absent (s : St) (c : String) (f : Stub → Stub)
    (h : lookupA s.stubs c = none) : update_stub_status s c f = s := by
  rw [update_stub_status, h]

theorem update_stub_status_present (s : St) (c : String) (f : Stub → Stub)
    (stub : Stub) (h : lookupA s.stubs c = some stub) :
    update_stub_status s c f
      = { s with stubs := insertA s.stubs c (f stub) } := by
  rw [update_stub_status, h]

theorem try_lock_none (s : St) (c : String)
    (h : lookupA s.pending c = none) : try_lock s c = (none, s) := by
  rw [try_lock, h]

theorem try_lock_some (s : St) (c : String) (rec : Record)
    (h : lookupA s.pending c = some rec) :
    try_lock s c =
      (some rec,
        { s with pending := eraseA s.pending c,
                 processing := insertA s.processing c rec }) := by
  rw [try_lock, h]

theorem try_lock_fst_cases (s : St) (c : String) :
    (try_lock s c = (none, s) ∧ lookupA s.pending c = none) ∨
      ∃ rec, lookupA s.pending c = some rec := by
  cases h : lookupA s.pending c with
  | none => exact Or.inl ⟨try_lock_none s c h, rfl⟩
  | some rec => exact Or.inr ⟨rec, rfl⟩

theorem try_lock_pending_none (s : St) (c x : String)
    (h : lookupA s.pending x = none) :
    lookupA (try_lock s c).2.pending x = none := by
  cases hc : lookupA s.pending c with
  | none => rw [try_lock_none s c hc]; exact h
  | some rec => rw [try_lock_some s c rec hc]; exact lookupA_eraseA_none _ _ _ h

theorem NotActive_try_lock (s : St) (c x : String)
    (h : NotActive x s) : NotActive x (try_lock s c).2 := by
  cases hc : lookupA s.pending c with
  | none => rw [try_lock_none s c hc]; exact h
  | some rec =>
    rw [try_lock_some s c rec hc]
    have hxc : x ≠ c := by
      intro he; rw [he] at h; rw [h.1] at hc; cases hc
    exact ⟨lookupA_eraseA_none _ _ _ h.1,
      lookupA_insertA_none _ _ _ _ h.2 hxc⟩

/-! ## Mutual exclusion of racing lock attempts -/

theorem lockRace_cons (s : St) (c : String) (rest : List String) :
    lockRace s (c :: rest) =
      (((c, (try_lock s c).1.isSome) :: (lockRace (try_lock s c).2 rest).1),
        (lockRace (try_lock s c).2 rest).2) := by
  rw [lockRace]

theorem lockRace_count_zero (s : St) (C : String) (attempts : List String)
    (h : lookupA s.pending C = none) :
    raceSuccesses C (lockRace s attempts).1 = 0 := by
  induction attempts generalizing s with
  | nil => rfl
  | cons c rest ih =>
    rw [lockRace_cons]
    have h2 : lookupA (try_lock s c).2.pending C = none :=
      try_lock_pending_none s c C h
    have hhead : (decide (c = C) && (try_lock s c).1.isSome) = false := by
      by_cases hc : c = C
      · subst hc; rw [try_lock_none s c h]; simp
      · simp [hc]
    have htail := ih _ h2
    rw [raceSuccesses] at htail ⊢
    rw [List.countP_cons, htail]
    simp [hhead]

theorem try_lock_success_clears (s : St) (c : String)
    (h : (try_lock s c).1.isSome = true) :
    lookupA (try_lock s c).2.pending c = none := by
  cases hc : lookupA s.pending c with
  | none => rw [try_lock_none s c hc] at h; simp at h
  | some rec => rw [try_lock_some s c rec hc]; exact lookupA_eraseA_self _ _

/-- C1: for every pending case `C`, over any serialization of the atomic
renames performed by any number of racing `claim_case` calls, at most one
rename attempt for `C` succeeds (moving `C`'s record from `pending` to
`processing`); every other attempt for `C` sees the rename fail with
`OSError` (recorded as `false` in the trace), so at most one racing call can
return `C`'s record with `status=ok`, the others skipping `C`. -/
theorem claim_mutual_exclusion (s : St) (C : String) (attempts : List String) :
    raceSuccesses C (lockRace s attempts).1 ≤ 1 := by
  induction attempts generalizing s with
  | nil => exact Nat.zero_le 1
  | cons c rest ih =>
    rw [lockRace_cons, raceSuccesses, List.countP_cons]
    by_cases hc : (decide (c = C) && (try_lock s c).1.isSome) = true
    · rw [Bool.and_eq_true, decide_eq_true_eq] at hc
      obtain ⟨hcC, hsucc⟩ := hc
      subst hcC
      have hclear := try_lock_success_clears s c hsucc
      have hz := lockRace_count_zero _ c rest hclear
      rw [raceSuccesses] at hz
      rw [hz]
      simp [hsucc]
    · have hf : (decide (c = C) && (try_lock s c).1.isSome) = false := by
        revert hc; cases hb : (decide (c = C) && (try_lock s c).1.isSome) <;>
          simp
      have ht := ih (try_lock s c).2
      rw [raceSuccesses] at ht
      simpa [hf] using ht

/-! ## Claim loop lemmas -/

theorem claim_loop_zero (s : St) (cands : List String) (now : String) :
    claim_case_loop s cands now 0 = (.empty, s) := by
  cases cands <;> rfl

theorem claim_loop_nil (s : St) (now : String) (fuel : Nat) :
    claim_case_loop s [] now fuel = (.empty, s) := by
  cases fuel <;> rfl

theorem claim_loop_skip (s : St) (c : String) (rest : List String)
    (now : String) (fuel : Nat) (h : lookupA s.pending c = none) :
    claim_case_loop s (c :: rest) now (fuel + 1)
      = claim_case_loop s rest now fuel := by
  rw [claim_case_loop, try_lock_none s c h]

theorem claim_loop_win (s : St) (c : String) (rest : List String)
    (now : String) (fuel : Nat) (rec : Record)
    (h : lookupA s.pending c = some rec) :
    claim_case_loop s (c :: rest) now (fuel + 1)
      = claim_locked { s with pending := eraseA s.pending c,
                              processing := insertA s.processing c rec }
          c rec now := by
  rw [claim_case_loop, try_lock_some s c rec h]

theorem claim_loop_take (fuel : Nat) (s : St) (cands : List String)
    (now : String) :
    claim_case_loop s cands now fuel
      = claim_case_loop s (cands.take fuel) now fuel := by
  induction fuel generalizing cands with
  | zero => rw [claim_loop_zero, claim_loop_zero]
  | succ n ih =>
    cases cands with
    | nil => rfl
    | cons c rest =>
      rw [List.take_succ_cons]
      cases hc : lookupA s.pending c with
      | none =>
        rw [claim_loop_skip _ _ _ _ _ hc, claim_loop_skip _ _ _ _ _ hc, ih]
      | some rec =>
        rw [claim_loop_win _ _ _ _ _ _ hc, claim_loop_win _ _ _ _ _ _ hc]

theorem claim_loop_all_fail (fuel : Nat) (s : St) (cands : List String)
    (now : String) (h : ∀ c ∈ cands, lookupA s.pending c = none) :
    claim_case_loop s cands now fuel = (.empty, s) := by
  induction fuel generalizing cands with
  | zero => exact claim_loop_zero s cands now
  | succ n ih =>
    cases cands with
    | nil => rfl
    | cons c rest =>
      rw [claim_loop_skip _ _ _ _ _ (h c (List.mem_cons_self c rest))]
      exact ih rest fun x hx => h x (List.mem_cons_of_mem c hx)

/-- C7: `claim_case` attempts at most its budget of 5 candidates, taken in
the order of the mtime-ascending listing (only the first five candidates can
influence the call); a candidate whose rename fails is skipped, the loop
moving on to the next candidate with one unit of budget spent and the state
untouched; an empty listing, or a listing on which no candidate within the
budget wins a rename, yields the explicit `{"status": "empty"}` result with
the state unchanged — never an error. -/
theorem claim_budget_empty (s : St) (cands : List String) (now : String) :
    claim_case_loop s cands now 5 = claim_case_loop s (cands.take 5) now 5
    ∧ claim_case_loop s [] now 5 = (.empty, s)
    ∧ ((∀ c ∈ cands, lookupA s.pending c = none) →
        claim_case_loop s cands now 5 = (.empty, s))
    ∧ (∀ c rest fuel, lookupA s.pending c = none →
        claim_case_loop s (c :: rest) now (fuel + 1)
          = claim_case_loop s rest now fuel)
    ∧ (s.pending = [] → claim_case s now = (.empty, s)) := by
  refine ⟨claim_loop_take 5 s cands now, claim_loop_nil s now 5,
    fun h => claim_loop_all_fail 5 s cands now h,
    fun c rest fuel h => claim_loop_skip s c rest now fuel h,
    fun h => ?_⟩
  rw [claim_case, h]
  rfl

/-- Witness for C7: with an empty pending partition every candidate's rename
fails and both the loop and the full `claim_case` call return the explicit
empty result. -/
theorem claim_budget_empty_w :
    claim_case_loop sProc ["x"] "t" 5 = (.empty, sProc)
    ∧ claim_case sProc "t" = (.empty, sProc) :=
  ⟨(claim_budget_empty sProc ["x"] "t").2.2.1 (by decide),
   (claim_budget_empty sProc ["x"] "t").2.2.2.2 (by rfl)⟩

/-! ## `confirm_case` lemmas -/

theorem confirm_absent (s : St) (id r now : String)
    (h : lookupA s.processing id = none) :
    confirm_case s id r now = (.ok "Already deleted or not found", s) := by
  rw [confirm_case, h]

theorem confirm_mismatch (s : St) (id r now : String) (rec : Record)
    (h : lookupA s.processing id = some rec) (hr : rec.receipt ≠ r) :
    confirm_case s id r now = (.receiptMismatch, s) := by
  rw [confirm_case, h]
  dsimp only
  rw [if_pos hr]

theorem confirm_present_ok (s : St) (id r now : String) (rec : Record)
    (h : lookupA s.processing id = some rec) (hr : rec.receipt = r) :
    confirm_case s id r now
      = (.ok "Data purged",
         update_stub_status
           { s with uploads := eraseA s.uploads rec.image_filename,
                    processing := eraseA s.processing id }
           id fun st => { st with status := "data_purged",
                                  updated_at := some now }) := by
  rw [confirm_case, h]
  dsimp only
  rw [if_neg fun hh => hh hr]

/-- C4 (code bug): the upload-size guard of `submit_case` never rejects.
The `raise HTTPException(413)` of line 165 sits inside the `try` of lines
163-168 whose handler is `except Exception: pass`, and `HTTPException`
derives from `Exception`, so the rejection the guard computes
(`size_guard_fires`) is swallowed: at the failing input — an image one byte
over `MAX_UPLOAD_BYTES` — the handler still creates the pending record (with
personal data), the stub and the blob, and returns the success redirect. -/
theorem submit_oversize_not_rejected :
    size_guard_fires (some (MAX_UPLOAD_BYTES + 1)) = true
    ∧ (submit_case emptySt "Alice" "555" "alice1" "a.png" "image/png"
        (some (MAX_UPLOAD_BYTES + 1)) [1] "c9" "r9" "t0").1 = "/result/c9"
    ∧ lookupA (submit_case emptySt "Alice" "555" "alice1" "a.png" "image/png"
        (some (MAX_UPLOAD_BYTES + 1)) [1] "c9" "r9" "t0").2.pending "c9"
        = some { id := "c9", receipt := "r9", created_at := "t0",
                 name := "Alice", phone := "555", line_id := "alice1",
                 image_filename := "c9.png", status := "pending" }
    ∧ lookupA (submit_case emptySt "Alice" "555" "alice1" "a.png" "image/png"
        (some (MAX_UPLOAD_BYTES + 1)) [1] "c9" "r9" "t0").2.stubs "c9"
        = some { id := "c9", receipt := "r9", created_at := "t0",
                 status := "pending", ai_level := none, ai_prob := none,
                 ai_suggestion := none } := by
  decide

/-- C9: when no processing record exists for `id`, `confirm_case` returns
the idempotent success `"Already deleted or not found"` for every receipt
value — the receipt is never compared on this path — and leaves the state
(including any record for `id` still sitting in `pending` or `error`)
untouched. -/
theorem confirm_no_processing_always_ok (s : St) (id r now : String)
    (h : lookupA s.processing id = none) :
    confirm_case s id r now = (.ok "Already deleted or not found", s) :=
  confirm_absent s id r now h

/-- Witness for C9: the record is still in `pending` and the receipt is
wrong, yet the call succeeds and changes nothing. -/
theorem confirm_no_processing_always_ok_w :
    confirm_case sPendingOnly "c1" "wrong" "t1"
      = (.ok "Already deleted or not found", sPendingOnly)
    ∧ lookupA sPendingOnly.pending "c1" = some cRec
    ∧ cRec.receipt ≠ "wrong" :=
  ⟨confirm_no_processing_always_ok sPendingOnly "c1" "wrong" "t1" (by decide),
   by decide, by decide⟩

/-- C6: `confirm_case` is idempotent.  With no processing record for `id`
the call returns success and performs no side effect; hence after a
successful purge (processing record present, correct receipt) an immediate
second call with the same receipt also succeeds and changes nothing. -/
theorem confirm_idempotent (s : St) (id r now now2 : String) :
    (lookupA s.processing id = none →
      confirm_case s id r now = (.ok "Already deleted or not found", s))
    ∧ (∀ rec, lookupA s.processing id = some rec → rec.receipt = r →
        (confirm_case s id r now).1 = .ok "Data purged"
        ∧ confirm_case (confirm_case s id r now).2 id r now2
            = (.ok "Already deleted or not found",
               (confirm_case s id r now).2)) := by
  constructor
  · intro h; exact confirm_absent s id r now h
  · intro rec h hr
    rw [confirm_present_ok s id r now rec h hr]
    refine ⟨rfl, ?_⟩
    apply confirm_absent
    rw [update_stub_status_processing]
    exact lookupA_eraseA_self _ _

/-- Witness for C6: purge `cRec` from `sProc`, then confirm again. -/
theorem confirm_idempotent_w :
    (confirm_case sProc "c1" "r1" "t1").1 = .ok "Data purged"
    ∧ confirm_case (confirm_case sProc "c1" "r1" "t1").2 "c1" "r1" "t2"
        = (.ok "Already deleted or not found",
           (confirm_case sProc "c1" "r1" "t1").2) :=
  (confirm_idempotent sProc "c1" "r1" "t1" "t2").2 cRec (by decide) (by decide)

/-! ## `update_ai_result` and `abort_case` lemmas -/

theorem updateAI_no_stub (s : St) (id r : String) (lvl : Int) (prob : Rat)
    (sugg now : String) (h : lookupA s.stubs id = none) :
    update_ai_result s id r lvl prob sugg now = (.stubNotFound, s) := by
  rw [update_ai_result, h]

theorem updateAI_mismatch (s : St) (id r : String) (lvl : Int) (prob : Rat)
    (sugg now : String) (stub : Stub) (h : lookupA s.stubs id = some stub)
    (hr : stub.receipt ≠ r) :
    update_ai_result s id r lvl prob sugg now = (.receiptMismatch, s) := by
  rw [update_ai_result, h]
  dsimp only
  rw [if_pos hr]

theorem updateAI_ok (s : St) (id r : String) (lvl : Int) (prob : Rat)
    (sugg now : String) (stub : Stub) (h : lookupA s.stubs id = some stub)
    (hr : stub.receipt = r) :
    update_ai_result s id r lvl prob sugg now
      = (.ok, { s with stubs := (insertA s.stubs id
          { stub with ai_level := some lvl, ai_prob := some prob,
                      ai_suggestion := some sugg, status := "done",
                      updated_at := some now }) }) := by
  rw [update_ai_result, h]
  dsimp only
  rw [if_neg fun hh => hh hr]

theorem abort_absent (s : St) (id r now : String)
    (h : lookupA s.processing id = none) :
    abort_case s id r now = (.notInProcessing, s) := by
  rw [abort_case, h]

theorem abort_mismatch (s : St) (id r now : String) (rec : Record)
    (h : lookupA s.processing id = some rec) (hr : rec.receipt ≠ r) :
    abort_case s id r now = (.receiptMismatch, s) := by
  rw [abort_case, h]
  dsimp only
  rw [if_pos hr]

theorem abort_ok (s : St) (id r now : String) (rec : Record)
    (h : lookupA s.processing id = some rec) (hr : rec.receipt = r) :
    abort_case s id r now
      = (.ok "Case moved back to pending",
         update_stub_status
           { s with processing := eraseA s.processing id,
                    pending := insertA s.pending id rec }
           id fun st =>
             { st with status := "pending",
                       note := some "Aborted by internal worker (retry scheduled)",
                       updated_at := some now }) := by
  rw [abort_case, h]
  dsimp only
  rw [if_neg fun hh => hh hr]

/-- C3 counterexample: for `id = "c1"` both a stored record (in `pending`)
and the stub exist, and the receipt `"wrong"` differs from the stored
`"r1"`; yet `confirm_case` is not rejected — it returns the idempotent
success because no `processing` record exists, never comparing the receipt.
The claim "each of the three calls is rejected with an error" is therefore
false as stated (the state is indeed unchanged). -/
theorem receipt_gating_counterexample :
    cStub.receipt ≠ "wrong"
    ∧ lookupA sPendingOnly.stubs "c1" = some cStub
    ∧ lookupA sPendingOnly.pending "c1" = some cRec
    ∧ confirm_case sPendingOnly "c1" "wrong" "t1"
        = (.ok "Already deleted or not found", sPendingOnly) := by
  decide

/-- C3 (amended): a reconciliation call with a receipt different from the
stored value never changes the state; `confirm_case` and `abort_case` reject
with an error whenever a processing record for `id` exists, and
`update_ai_result` rejects whenever the stub exists (404 when it does not);
but `confirm_case` with no processing record returns the idempotent success
for any receipt value instead of rejecting (still with no state change). -/
theorem receipt_gating_amended (s : St) (id r : String) (lvl : Int)
    (prob : Rat) (sugg now : String) :
    (∀ rec, lookupA s.processing id = some rec → rec.receipt ≠ r →
        confirm_case s id r now = (.receiptMismatch, s))
    ∧ (∀ rec, lookupA s.processing id = some rec → rec.receipt ≠ r →
        abort_case s id r now = (.receiptMismatch, s))
    ∧ (∀ stub, lookupA s.stubs id = some stub → stub.receipt ≠ r →
        update_ai_result s id r lvl prob sugg now = (.receiptMismatch, s))
    ∧ (lookupA s.stubs id = none →
        update_ai_result s id r lvl prob sugg now = (.stubNotFound, s))
    ∧ (lookupA s.processing id = none →
        abort_case s id r now = (.notInProcessing, s))
    ∧ (lookupA s.processing id = none →
        confirm_case s id r now = (.ok "Already deleted or not found", s)) :=
  ⟨fun rec h hr => confirm_mismatch s id r now rec h hr,
   fun rec h hr => abort_mismatch s id r now rec h hr,
   fun stub h hr => updateAI_mismatch s id r lvl prob sugg now stub h hr,
   fun h => updateAI_no_stub s id r lvl prob sugg now h,
   fun h => abort_absent s id r now h,
   fun h => confirm_absent s id r now h⟩

/-- Witness for the amended C3: concrete wrong-receipt calls are rejected
and leave the concrete states untouched. -/
theorem receipt_gating_amended_w :
    confirm_case sProc "c1" "bad" "t1" = (.receiptMismatch, sProc)
    ∧ abort_case sProc "c1" "bad" "t1" = (.receiptMismatch, sProc)
    ∧ update_ai_result sStubDone "c1" "bad" 2 (9 : Rat) "x" "t1"
        = (.receiptMismatch, sStubDone) :=
  ⟨(receipt_gating_amended sProc "c1" "bad" 2 (9 : Rat) "x" "t1").1 cRec
      (by decide) (by decide),
   (receipt_gating_amended sProc "c1" "bad" 2 (9 : Rat) "x" "t1").2.1 cRec
      (by decide) (by decide),
   (receipt_gating_amended sStubDone "c1" "bad" 2 (9 : Rat) "x" "t1").2.2.1
      cStubDone (by decide) (by decide)⟩

/-- C2 counterexample: `confirm_case` returns success while the full record
— name, phone, contact handle — is still stored in `pending` and its blob in
`uploads`.  The receipt used is the correct stored one, and the state is
reachable (submit, claim, abort puts the record back in `pending`; the
worker then retries confirm).  The no-processing-record branch of
`confirm_case` returns success without purging anything, so the claim "after
a confirm_case call that returns success, no case record containing personal
data and no image blob for that id remains anywhere" is false. -/
theorem purge_completeness_counterexample :
    confirm_case sPendingOnly "c1" "r1" "t1"
      = (.ok "Already deleted or not found", sPendingOnly)
    ∧ lookupA sPendingOnly.pending "c1" = some cRec
    ∧ lookupA sPendingOnly.uploads "c1.jpg" = some [1, 2, 3]
    ∧ cRec.name = "Alice" ∧ cRec.phone = "555" ∧ cRec.line_id = "alice1"
    ∧ cRec.receipt = "r1" := by
  decide

/-- C2 (amended): when the successful `confirm_case(id, receipt)` takes the
purge path — a processing record for `id` exists and the receipt matches —
and `id`'s record lives only in `processing` (none in `pending` or `error`,
and every blob named `{id}...` is the one the record references), then after
the call no record for `id` remains in any of `pending`, `processing`,
`error`, no blob for `id` remains in `uploads`, and only the stub survives,
marked `data_purged`.  (The other success path, with no processing record,
purges nothing — see the counterexample.) -/
theorem confirm_purge_completeness (s : St) (id r now : String)
    (rec : Record) (stub : Stub)
    (hproc : lookupA s.processing id = some rec)
    (hr : rec.receipt = r)
    (hpend : lookupA s.pending id = none)
    (herr : lookupA s.error id = none)
    (hstub : lookupA s.stubs id = some stub)
    (hblob : ∀ p ∈ s.uploads,
      strStartsWith (p : String × List Nat).1 id = true →
        p.1 = rec.image_filename) :
    (confirm_case s id r now).1 = .ok "Data purged"
    ∧ lookupA (confirm_case s id r now).2.pending id = none
    ∧ lookupA (confirm_case s id r now).2.processing id = none
    ∧ lookupA (confirm_case s id r now).2.error id = none
    ∧ (∀ p ∈ (confirm_case s id r now).2.uploads,
        strStartsWith (p : String × List Nat).1 id = false)
    ∧ lookupA (confirm_case s id r now).2.stubs id
        = some { stub with status := "data_purged",
                           updated_at := some now } := by
  rw [confirm_present_ok s id r now rec hproc hr]
  rw [update_stub_status_present
      { s with uploads := eraseA s.uploads rec.image_filename,
               processing := eraseA s.processing id } id _ stub hstub]
  dsimp only
  refine ⟨rfl, hpend, lookupA_eraseA_self _ _, herr, ?_, ?_⟩
  · intro p hp
    have hmem := mem_eraseA hp
    cases hb : strStartsWith p.1 id with
    | false => rfl
    | true => exact absurd (hblob p hmem.1 hb) hmem.2
  · exact lookupA_insertA_self _ _ _

/-- Witness for the amended C2: purging `cRec` from `sProc` removes the
record and blob everywhere and leaves the purged stub. -/
theorem confirm_purge_completeness_w :
    (confirm_case sProc "c1" "r1" "t1").1 = .ok "Data purged"
    ∧ lookupA (confirm_case sProc "c1" "r1" "t1").2.pending "c1" = none
    ∧ lookupA (confirm_case sProc "c1" "r1" "t1").2.processing "c1" = none
    ∧ lookupA (confirm_case sProc "c1" "r1" "t1").2.error "c1" = none
    ∧ lookupA (confirm_case sProc "c1" "r1" "t1").2.stubs "c1"
        = some { cStub with status := "data_purged",
                            updated_at := some "t1" } := by
  have h := confirm_purge_completeness sProc "c1" "r1" "t1" cRec cStub
    (by decide) (by decide) (by decide) (by decide) (by decide) (by decide)
  exact ⟨h.1, h.2.1, h.2.2.1, h.2.2.2.1, h.2.2.2.2.2⟩

/-! ## `claim_locked` branch lemmas -/

theorem claim_locked_missing_parts (s : St) (cid : String) (rec : Record)
    (now : String) (h : lookupA s.uploads rec.image_filename = none) :
    (claim_locked s cid rec now).1 = .err "Image file missing" cid rec.receipt
    ∧ (claim_locked s cid rec now).2.pending = s.pending
    ∧ (claim_locked s cid rec now).2.processing = eraseA s.processing cid
    ∧ (claim_locked s cid rec now).2.error = insertA s.error cid rec
    ∧ (claim_locked s cid rec now).2.stubs
        = (update_stub_status s cid fun st =>
            { st with status := "error",
                      note := some "Image missing (quarantined)",
                      error_at := some now }).stubs := by
  rw [claim_locked, h]
  dsimp only
  exact ⟨rfl, update_stub_status_pending _ _ _,
    by rw [update_stub_status_processing],
    by rw [update_stub_status_error], rfl⟩

theorem claim_locked_toolarge_parts (s : St) (cid : String) (rec : Record)
    (now : String) (bytes : List Nat)
    (h : lookupA s.uploads rec.image_filename = some bytes)
    (hsize : bytes.length > MAX_CLAIM_IMAGE_BYTES) :
    (claim_locked s cid rec now).1 = .err "Image too large" cid rec.receipt
    ∧ (claim_locked s cid rec now).2.pending = s.pending
    ∧ (claim_locked s cid rec now).2.processing = eraseA s.processing cid
    ∧ (claim_locked s cid rec now).2.error = insertA s.error cid rec
    ∧ (claim_locked s cid rec now).2.stubs
        = (update_stub_status s cid fun st =>
            { st with status := "error",
                      note := some "Image too large (quarantined)",
                      error_at := some now }).stubs := by
  rw [claim_locked, h]
  dsimp only
  rw [if_pos hsize]
  exact ⟨rfl, update_stub_status_pending _ _ _,
    by rw [update_stub_status_processing],
    by rw [update_stub_status_error], rfl⟩

theorem claim_locked_ok_eq (s : St) (cid : String) (rec : Record)
    (now : String) (bytes : List Nat)
    (h : lookupA s.uploads rec.image_filename = some bytes)
    (hsize : ¬ bytes.length > MAX_CLAIM_IMAGE_BYTES) :
    claim_locked s cid rec now
      = (.ok rec bytes (image_ext_of rec.image_filename),
         update_stub_status s cid fun st =>
           { st with status := "processing", processing_at := some now }) := by
  rw [claim_locked, h]
  dsimp only
  rw [if_neg hsize]

/-! ## Preservation of the AI result fields -/

theorem aiFields_update_stub_status (s : St) (k c : String) (f : Stub → Stub)
    (hf : ∀ st, (f st).ai_level = st.ai_level ∧ (f st).ai_prob = st.ai_prob
      ∧ (f st).ai_suggestion = st.ai_suggestion) :
    aiFields (lookupA (update_stub_status s k f).stubs c)
      = aiFields (lookupA s.stubs c) := by
  cases h : lookupA s.stubs k with
  | none => rw [update_stub_status_absent s k f h]
  | some stub =>
    rw [update_stub_status_present s k f stub h]
    dsimp only
    by_cases hc : c = k
    · subst hc
      rw [lookupA_insertA_self, h]
      simp [aiFields, (hf stub).1, (hf stub).2.1, (hf stub).2.2]
    · rw [lookupA_insertA_ne _ _ _ _ hc]

theorem try_lock_stubs (s : St) (c : String) :
    (try_lock s c).2.stubs = s.stubs := by
  cases h : lookupA s.pending c with
  | none => rw [try_lock_none s c h]
  | some rec => rw [try_lock_some s c rec h]

theorem aiFields_claim_locked (s : St) (cid : String) (rec : Record)
    (now c : String) :
    aiFields (lookupA (claim_locked s cid rec now).2.stubs c)
      = aiFields (lookupA s.stubs c) := by
  cases h : lookupA s.uploads rec.image_filename with
  | none =>
    rw [(claim_locked_missing_parts s cid rec now h).2.2.2.2]
    exact aiFields_update_stub_status s cid c _ fun st => ⟨rfl, rfl, rfl⟩
  | some bytes =>
    by_cases hsize : bytes.length > MAX_CLAIM_IMAGE_BYTES
    · rw [(claim_locked_toolarge_parts s cid rec now bytes h hsize).2.2.2.2]
      exact aiFields_update_stub_status s cid c _ fun st => ⟨rfl, rfl, rfl⟩
    · rw [claim_locked_ok_eq s cid rec now bytes h hsize]
      exact aiFields_update_stub_status s cid c _ fun st => ⟨rfl, rfl, rfl⟩

theorem aiFields_claim_loop (fuel : Nat) (s : St) (cands : List String)
    (now c : String) :
    aiFields (lookupA (claim_case_loop s cands now fuel).2.stubs c)
      = aiFields (lookupA s.stubs c) := by
  induction fuel generalizing s cands with
  | zero => rw [claim_loop_zero]
  | succ n ih =>
    cases cands with
    | nil => rw [claim_loop_nil]
    | cons k rest =>
      cases hk : lookupA s.pending k with
      | none => rw [claim_loop_skip _ _ _ _ _ hk]; exact ih s rest
      | some rec =>
        rw [claim_loop_win _ _ _ _ _ _ hk]
        exact aiFields_claim_locked _ k rec now c

theorem aiFields_confirm (s : St) (id r now c : String) :
    aiFields (lookupA (confirm_case s id r now).2.stubs c)
      = aiFields (lookupA s.stubs c) := by
  cases h : lookupA s.processing id with
  | none => rw [confirm_absent s id r now h]
  | some rec =>
    by_cases hr : rec.receipt = r
    · rw [confirm_present_ok s id r now rec h hr]
      exact aiFields_update_stub_status _ id c _ fun st => ⟨rfl, rfl, rfl⟩
    · rw [confirm_mismatch s id r now rec h hr]

theorem aiFields_abort (s : St) (id r now c : String) :
    aiFields (lookupA (abort_case s id r now).2.stubs c)
      = aiFields (lookupA s.stubs c) := by
  cases h : lookupA s.processing id with
  | none => rw [abort_absent s id r now h]
  | some rec =>
    by_cases hr : rec.receipt = r
    · rw [abort_ok s id r now rec h hr]
      exact aiFields_update_stub_status _ id c _ fun st => ⟨rfl, rfl, rfl⟩
    · rw [abort_mismatch s id r now rec h hr]

theorem aiFields_submit (s : St) (name phone line_id fn ct : String)
    (size : Option Nat) (bytes : List Nat) (cid rcpt cat c : String)
    (hc : cid ≠ c) :
    aiFields (lookupA
        (submit_case s name phone line_id fn ct size bytes cid rcpt cat).2.stubs
        c)
      = aiFields (lookupA s.stubs c) := by
  rw [submit_case]
  dsimp only
  rw [lookupA_insertA_ne _ _ _ _ fun hh => hc hh.symm]

theorem aiFields_applyOp (s : St) (c : String) (op : Op)
    (hsub : opSubmitsId c op = false) (hup : opIsUpdateAI op = false) :
    aiFields (lookupA (applyOp s op).stubs c)
      = aiFields (lookupA s.stubs c) := by
  cases op with
  | submit name phone line_id fn ct size bytes cid rcpt cat =>
    rw [opSubmitsId] at hsub
    have hc : cid ≠ c := by
      intro hh; rw [hh] at hsub; simp at hsub
    exact aiFields_submit s name phone line_id fn ct size bytes cid rcpt cat
      c hc
  | claim cands now => exact aiFields_claim_loop 5 s cands now c
  | confirm cid r now => exact aiFields_confirm s cid r now c
  | updateAI id r lvl prob sugg now => cases hup
  | abort cid r now => exact aiFields_abort s cid r now c

theorem aiSet_of_aiFields_eq (s s' : St) (c : String)
    (h : aiFields (lookupA s'.stubs c) = aiFields (lookupA s.stubs c))
    (hset : aiSet c s) : aiSet c s' := by
  obtain ⟨st, hst, h1, h2, h3⟩ := hset
  rw [hst] at h
  cases h' : lookupA s'.stubs c with
  | none => rw [h'] at h; simp [aiFields] at h
  | some st' =>
    rw [h'] at h
    have hsome : some (st'.ai_level, st'.ai_prob, st'.ai_suggestion)
        = some (st.ai_level, st.ai_prob, st.ai_suggestion) := h
    have htriple := Option.some.inj hsome
    have e1 : st'.ai_level = st.ai_level := congrArg (fun q => q.1) htriple
    have e2 : st'.ai_prob = st.ai_prob := congrArg (fun q => q.2.1) htriple
    have e3 : st'.ai_suggestion = st.ai_suggestion :=
      congrArg (fun q => q.2.2) htriple
    exact ⟨st', h', by rw [e1]; exact h1, by rw [e2]; exact h2,
      by rw [e3]; exact h3⟩

theorem aiSet_updateAI (s : St) (id r : String) (lvl : Int) (prob : Rat)
    (sugg now c : String) (hset : aiSet c s) :
    aiSet c (update_ai_result s id r lvl prob sugg now).2 := by
  cases h : lookupA s.stubs id with
  | none => rw [updateAI_no_stub s id r lvl prob sugg now h]; exact hset
  | some stub =>
    by_cases hr : stub.receipt = r
    · rw [updateAI_ok s id r lvl prob sugg now stub h hr]
      by_cases hc : c = id
      · subst hc
        exact ⟨_, lookupA_insertA_self _ _ _, by simp, by simp, by simp⟩
      · obtain ⟨st, hst, h1, h2, h3⟩ := hset
        exact ⟨st, by rw [← hst]; exact lookupA_insertA_ne _ _ _ _ hc,
          h1, h2, h3⟩
    · rw [updateAI_mismatch s id r lvl prob sugg now stub h hr]; exact hset

theorem aiSet_applyOps (s : St) (c : String) (ops : List Op)
    (hops : ∀ op ∈ ops, opSubmitsId c op = false)
    (hset : aiSet c s) : aiSet c (applyOps s ops) := by
  induction ops generalizing s with
  | nil => exact hset
  | cons op rest ih =>
    have hop := hops op (List.mem_cons_self op rest)
    have hstep : aiSet c (applyOp s op) := by
      cases hup : opIsUpdateAI op with
      | false =>
        exact aiSet_of_aiFields_eq s (applyOp s op) c
          (aiFields_applyOp s c op hop hup) hset
      | true =>
        cases op with
        | updateAI id r lvl prob sugg now =>
          exact aiSet_updateAI s id r lvl prob sugg now c hset
        | submit name phone line_id fn ct size bytes cid rcpt cat =>
          cases hup
        | claim cands now => cases hup
        | confirm cid r now => cases hup
        | abort cid r now => cases hup
    exact ih (applyOp s op)
      (fun o ho => hops o (List.mem_cons_of_mem op ho)) hstep

/-- C8 counterexample: the stub's AI fields are already populated (by an
earlier authenticated update), yet a second authenticated `update_ai_result`
sets them again, overwriting the stored values — `ai_level` changes from
`some 1` to `some 2` — so "once set they are not set again" is false: the
code never checks whether the fields are still null (lines 397-405). -/
theorem ai_fields_set_again :
    lookupA sStubDone.stubs "c1" = some cStubDone
    ∧ cStubDone.ai_level = some 1
    ∧ (update_ai_result sStubDone "c1" "r1" 2 (9 : Rat) "other" "t2").1 = .ok
    ∧ lookupA
        (update_ai_result sStubDone "c1" "r1" 2 (9 : Rat) "other" "t2").2.stubs
        "c1"
      = some { cStubDone with ai_level := some 2, ai_prob := some (9 : Rat),
                              ai_suggestion := some "other",
                              updated_at := some "t2" } := by
  decide

/-- C8 (amended): submission creates the stub with all three AI fields null;
no operation other than a receipt-authenticated `update_ai_result` ever
changes them: claim, confirm, abort and submissions under other identifiers
leave the fields untouched, and an `update_ai_result` call that fails its
authentication — stub absent (404) or stored receipt different from the one
supplied (401) — returns the rejection with the state entirely unchanged;
only the receipt-authenticated call sets all three to non-null values; and
once non-null they remain non-null under every later operation (no
re-submission of the same identifier occurring).  However the code does not
guard against re-setting: a repeated authenticated `update_ai_result`
overwrites the fields with fresh values (see the counterexample), so they do
not transition "exactly once". -/
theorem ai_fields_lifecycle (s : St) (c : String) :
    (∀ name phone line_id fn ct size bytes rcpt cat,
      lookupA
          (submit_case s name phone line_id fn ct size bytes c rcpt cat).2.stubs
          c
        = some { id := c, receipt := rcpt, created_at := cat,
                 status := "pending", ai_level := none, ai_prob := none,
                 ai_suggestion := none })
    ∧ (∀ op, opSubmitsId c op = false → opIsUpdateAI op = false →
        aiFields (lookupA (applyOp s op).stubs c)
          = aiFields (lookupA s.stubs c))
    ∧ (∀ id r lvl prob sugg now, lookupA s.stubs id = none →
        update_ai_result s id r lvl prob sugg now = (.stubNotFound, s))
    ∧ (∀ id r lvl prob sugg now stub, lookupA s.stubs id = some stub →
        stub.receipt ≠ r →
        update_ai_result s id r lvl prob sugg now = (.receiptMismatch, s))
    ∧ (∀ r lvl prob sugg now stub, lookupA s.stubs c = some stub →
        stub.receipt = r →
        lookupA (update_ai_result s c r lvl prob sugg now).2.stubs c
          = some { stub with ai_level := some lvl, ai_prob := some prob,
                             ai_suggestion := some sugg, status := "done",
                             updated_at := some now })
    ∧ (∀ ops : List Op, (∀ op ∈ ops, opSubmitsId c op = false) →
        aiSet c s → aiSet c (applyOps s ops)) := by
  refine ⟨?_, fun op h1 h2 => aiFields_applyOp s c op h1 h2,
    fun id r lvl prob sugg now h => updateAI_no_stub s id r lvl prob sugg now h,
    fun id r lvl prob sugg now stub h hr =>
      updateAI_mismatch s id r lvl prob sugg now stub h hr,
    ?_, fun ops hops hset => aiSet_applyOps s c ops hops hset⟩
  · intro name phone line_id fn ct size bytes rcpt cat
    rw [submit_case]
    dsimp only
    exact lookupA_insertA_self _ _ _
  · intro r lvl prob sugg now stub hstub hr
    rw [updateAI_ok s c r lvl prob sugg now stub hstub hr]
    dsimp only
    exact lookupA_insertA_self _ _ _

/-- Witness for the amended C8: a confirm call leaves the populated AI
fields of `cStubDone` untouched; a wrong-receipt `update_ai_result` is
rejected with the state (and hence the fields) entirely unchanged, as is one
aimed at an id with no stub; and the fields stay populated over an operation
sequence. -/
theorem ai_fields_lifecycle_w :
    aiFields (lookupA (applyOp sStubDone (Op.confirm "c1" "r1" "t9")).stubs
        "c1")
      = aiFields (lookupA sStubDone.stubs "c1")
    ∧ update_ai_result sStubDone "nosuch" "r1" 5 (1 : Rat) "y" "t9"
        = (.stubNotFound, sStubDone)
    ∧ update_ai_result sStubDone "c1" "bad" 5 (1 : Rat) "y" "t9"
        = (.receiptMismatch, sStubDone)
    ∧ aiSet "c1" (applyOps sStubDone [Op.confirm "c1" "r1" "t9"]) :=
  ⟨(ai_fields_lifecycle sStubDone "c1").2.1 (Op.confirm "c1" "r1" "t9")
      (by decide) (by decide),
   (ai_fields_lifecycle sStubDone "c1").2.2.1 "nosuch" "r1" 5 (1 : Rat) "y"
      "t9" (by decide),
   (ai_fields_lifecycle sStubDone "c1").2.2.2.1 "c1" "bad" 5 (1 : Rat) "y"
      "t9" cStubDone (by decide) (by decide),
   (ai_fields_lifecycle sStubDone "c1").2.2.2.2.2 [Op.confirm "c1" "r1" "t9"]
      (by intro op ho; rw [List.mem_singleton.mp ho]; decide)
      ⟨cStubDone, by decide, by decide, by decide, by decide⟩⟩

/-! ## `NotActive` is preserved by every operation not re-submitting the id -/

theorem NotActive_claim_locked (s : St) (cid : String) (rec : Record)
    (now x : String) (h : NotActive x s) :
    NotActive x (claim_locked s cid rec now).2 := by
  cases hb : lookupA s.uploads rec.image_filename with
  | none =>
    obtain ⟨-, hpend, hproc, -, -⟩ := claim_locked_missing_parts s cid rec now hb
    exact ⟨by rw [hpend]; exact h.1,
           by rw [hproc]; exact lookupA_eraseA_none _ _ _ h.2⟩
  | some bytes =>
    by_cases hsize : bytes.length > MAX_CLAIM_IMAGE_BYTES
    · obtain ⟨-, hpend, hproc, -, -⟩ :=
        claim_locked_toolarge_parts s cid rec now bytes hb hsize
      exact ⟨by rw [hpend]; exact h.1,
             by rw [hproc]; exact lookupA_eraseA_none _ _ _ h.2⟩
    · rw [claim_locked_ok_eq s cid rec now bytes hb hsize]
      dsimp only
      exact ⟨by rw [update_stub_status_pending]; exact h.1,
             by rw [update_stub_status_processing]; exact h.2⟩

theorem NotActive_claim_loop (fuel : Nat) (s : St) (cands : List String)
    (now x : String) (h : NotActive x s) :
    NotActive x (claim_case_loop s cands now fuel).2 := by
  induction fuel generalizing s cands with
  | zero => rw [claim_loop_zero]; exact h
  | succ n ih =>
    cases cands with
    | nil => rw [claim_loop_nil]; exact h
    | cons k rest =>
      cases hk : lookupA s.pending k with
      | none => rw [claim_loop_skip _ _ _ _ _ hk]; exact ih s rest h
      | some rec =>
        rw [claim_loop_win _ _ _ _ _ _ hk]
        apply NotActive_claim_locked
        have hxk : x ≠ k := fun he => by
          have hx1 := h.1
          rw [he] at hx1
          rw [hx1] at hk
          cases hk
        exact ⟨lookupA_eraseA_none _ _ _ h.1,
               lookupA_insertA_none _ _ _ _ h.2 hxk⟩

theorem NotActive_confirm (s : St) (id r now x : String) (h : NotActive x s) :
    NotActive x (confirm_case s id r now).2 := by
  cases hp : lookupA s.processing id with
  | none => rw [confirm_absent s id r now hp]; exact h
  | some rec =>
    by_cases hr : rec.receipt = r
    · rw [confirm_present_ok s id r now rec hp hr]
      dsimp only
      exact ⟨by rw [update_stub_status_pending]; exact h.1,
             by rw [update_stub_status_processing]
                exact lookupA_eraseA_none _ _ _ h.2⟩
    · rw [confirm_mismatch s id r now rec hp hr]; exact h

theorem NotActive_updateAI (s : St) (id r : String) (lvl : Int) (prob : Rat)
    (sugg now x : String) (h : NotActive x s) :
    NotActive x (update_ai_result s id r lvl prob sugg now).2 := by
  cases hp : lookupA s.stubs id with
  | none => rw [updateAI_no_stub s id r lvl prob sugg now hp]; exact h
  | some stub =>
    by_cases hr : stub.receipt = r
    · rw [updateAI_ok s id r lvl prob sugg now stub hp hr]
      exact ⟨h.1, h.2⟩
    · rw [updateAI_mismatch s id r lvl prob sugg now stub hp hr]; exact h

theorem NotActive_abort (s : St) (id r now x : String) (h : NotActive x s) :
    NotActive x (abort_case s id r now).2 := by
  cases hp : lookupA s.processing id with
  | none => rw [abort_absent s id r now hp]; exact h
  | some rec =>
    by_cases hr : rec.receipt = r
    · rw [abort_ok s id r now rec hp hr]
      have hxid : x ≠ id := fun he => by
        have hx2 := h.2
        rw [he] at hx2
        rw [hx2] at hp
        cases hp
      exact ⟨by rw [update_stub_status_pending]
                exact lookupA_insertA_none _ _ _ _ h.1 hxid,
             by rw [update_stub_status_processing]
                exact lookupA_eraseA_none _ _ _ h.2⟩
    · rw [abort_mismatch s id r now rec hp hr]; exact h

theorem NotActive_submit (s : St) (name phone line_id fn ct : String)
    (size : Option Nat) (bytes : List Nat) (cid rcpt cat x : String)
    (hc : cid ≠ x) (h : NotActive x s) :
    NotActive x
      (submit_case s name phone line_id fn ct size bytes cid rcpt cat).2 := by
  rw [submit_case]
  dsimp only
  exact ⟨lookupA_insertA_none _ _ _ _ h.1 fun he => hc he.symm, h.2⟩

theorem NotActive_applyOp (s : St) (x : String) (op : Op)
    (hsub : opSubmitsId x op = false) (h : NotActive x s) :
    NotActive x (applyOp s op) := by
  cases op with
  | submit name phone line_id fn ct size bytes cid rcpt cat =>
    have hc : cid ≠ x := by
      simp [opSubmitsId] at hsub
      exact hsub
    exact NotActive_submit s name phone line_id fn ct size bytes cid rcpt
      cat x hc h
  | claim cands now => exact NotActive_claim_loop 5 s cands now x h
  | confirm cid r now => exact NotActive_confirm s cid r now x h
  | updateAI id r lvl prob sugg now =>
    exact NotActive_updateAI s id r lvl prob sugg now x h
  | abort cid r now => exact NotActive_abort s cid r now x h

/-! ## `PartWF` (file-name key = stored id) is preserved by every operation -/

theorem PartWF_try_lock (s : St) (c : String) (h : PartWF s) :
    PartWF (try_lock s c).2 := by
  cases hc : lookupA s.pending c with
  | none => rw [try_lock_none s c hc]; exact h
  | some rec =>
    rw [try_lock_some s c rec hc]
    constructor
    · intro p hp
      exact h.1 p (mem_eraseA hp).1
    · intro p hp
      rcases mem_insertA hp with he | hm
      · rw [he]; exact h.1 (c, rec) (lookupA_mem hc)
      · exact h.2 p hm

theorem PartWF_claim_locked (s : St) (cid : String) (rec : Record)
    (now : String) (h : PartWF s) : PartWF (claim_locked s cid rec now).2 := by
  cases hb : lookupA s.uploads rec.image_filename with
  | none =>
    obtain ⟨-, hpend, hproc, -, -⟩ := claim_locked_missing_parts s cid rec now hb
    constructor
    · intro p hp; rw [hpend] at hp; exact h.1 p hp
    · intro p hp; rw [hproc] at hp; exact h.2 p (mem_eraseA hp).1
  | some bytes =>
    by_cases hsize : bytes.length > MAX_CLAIM_IMAGE_BYTES
    · obtain ⟨-, hpend, hproc, -, -⟩ :=
        claim_locked_toolarge_parts s cid rec now bytes hb hsize
      constructor
      · intro p hp; rw [hpend] at hp; exact h.1 p hp
      · intro p hp; rw [hproc] at hp; exact h.2 p (mem_eraseA hp).1
    · rw [claim_locked_ok_eq s cid rec now bytes hb hsize]
      dsimp only
      constructor
      · intro p hp; rw [update_stub_status_pending] at hp; exact h.1 p hp
      · intro p hp; rw [update_stub_status_processing] at hp; exact h.2 p hp

theorem PartWF_claim_loop (fuel : Nat) (s : St) (cands : List String)
    (now : String) (h : PartWF s) :
    PartWF (claim_case_loop s cands now fuel).2 := by
  induction fuel generalizing s cands with
  | zero => rw [claim_loop_zero]; exact h
  | succ n ih =>
    cases cands with
    | nil => rw [claim_loop_nil]; exact h
    | cons k rest =>
      cases hk : lookupA s.pending k with
      | none => rw [claim_loop_skip _ _ _ _ _ hk]; exact ih s rest h
      | some rec =>
        rw [claim_loop_win _ _ _ _ _ _ hk]
        apply PartWF_claim_locked
        constructor
        · intro p hp; exact h.1 p (mem_eraseA hp).1
        · intro p hp
          rcases mem_insertA hp with he | hm
          · rw [he]; exact h.1 (k, rec) (lookupA_mem hk)
          · exact h.2 p hm

theorem PartWF_confirm (s : St) (id r now : String) (h : PartWF s) :
    PartWF (confirm_case s id r now).2 := by
  cases hp : lookupA s.processing id with
  | none => rw [confirm_absent s id r now hp]; exact h
  | some rec =>
    by_cases hr : rec.receipt = r
    · rw [confirm_present_ok s id r now rec hp hr]
      dsimp only
      constructor
      · intro p hq; rw [update_stub_status_pending] at hq; exact h.1 p hq
      · intro p hq
        rw [update_stub_status_processing] at hq
        exact h.2 p (mem_eraseA hq).1
    · rw [confirm_mismatch s id r now rec hp hr]; exact h

theorem PartWF_updateAI (s : St) (id r : String) (lvl : Int) (prob : Rat)
    (sugg now : String) (h : PartWF s) :
    PartWF (update_ai_result s id r lvl prob sugg now).2 := by
  cases hp : lookupA s.stubs id with
  | none => rw [updateAI_no_stub s id r lvl prob sugg now hp]; exact h
  | some stub =>
    by_cases hr : stub.receipt = r
    · rw [updateAI_ok s id r lvl prob sugg now stub hp hr]
      exact ⟨h.1, h.2⟩
    · rw [updateAI_mismatch s id r lvl prob sugg now stub hp hr]; exact h

theorem PartWF_abort (s : St) (id r now : String) (h : PartWF s) :
    PartWF (abort_case s id r now).2 := by
  cases hp : lookupA s.processing id with
  | none => rw [abort_absent s id r now hp]; exact h
  | some rec =>
    by_cases hr : rec.receipt = r
    · rw [abort_ok s id r now rec hp hr]
      constructor
      · intro p hq
        rw [update_stub_status_pending] at hq
        rcases mem_insertA hq with he | hm
        · rw [he]; exact h.2 (id, rec) (lookupA_mem hp)
        · exact h.1 p hm
      · intro p hq
        rw [update_stub_status_processing] at hq
        exact h.2 p (mem_eraseA hq).1
    · rw [abort_mismatch s id r now rec hp hr]; exact h

theorem PartWF_submit (s : St) (name phone line_id fn ct : String)
    (size : Option Nat) (bytes : List Nat) (cid rcpt cat : String)
    (h : PartWF s) :
    PartWF (submit_case s name phone line_id fn ct size bytes cid rcpt
      cat).2 := by
  rw [submit_case]
  dsimp only
  constructor
  · intro p hp
    rcases mem_insertA hp with he | hm
    · rw [he]
    · exact h.1 p hm
  · exact h.2

theorem PartWF_applyOp (s : St) (op : Op) (h : PartWF s) :
    PartWF (applyOp s op) := by
  cases op with
  | submit name phone line_id fn ct size bytes cid rcpt cat =>
    exact PartWF_submit s name phone line_id fn ct size bytes cid rcpt cat h
  | claim cands now => exact PartWF_claim_loop 5 s cands now h
  | confirm cid r now => exact PartWF_confirm s cid r now h
  | updateAI id r lvl prob sugg now =>
    exact PartWF_updateAI s id r lvl prob sugg now h
  | abort cid r now => exact PartWF_abort s cid r now h

theorem invariants_applyOps (s : St) (x : String) (ops : List Op)
    (hops : ∀ op ∈ ops, opSubmitsId x op = false)
    (hwf : PartWF s) (h : NotActive x s) :
    NotActive x (applyOps s ops) ∧ PartWF (applyOps s ops) := by
  induction ops generalizing s with
  | nil => exact ⟨h, hwf⟩
  | cons op rest ih =>
    exact ih (applyOp s op)
      (fun o ho => hops o (List.mem_cons_of_mem op ho))
      (PartWF_applyOp s op hwf)
      (NotActive_applyOp s x op (hops op (List.mem_cons_self op rest)) h)

/-! ## A claim call only ever offers cases from the pending listing -/

theorem claimedId_claim_locked (s : St) (cid : String) (rec : Record)
    (now : String) :
    claimedId (claim_locked s cid rec now).1 = some cid
    ∨ claimedId (claim_locked s cid rec now).1 = some rec.id := by
  cases hb : lookupA s.uploads rec.image_filename with
  | none =>
    exact Or.inl
      (by rw [(claim_locked_missing_parts s cid rec now hb).1]; rfl)
  | some bytes =>
    by_cases hsize : bytes.length > MAX_CLAIM_IMAGE_BYTES
    · exact Or.inl
        (by rw [(claim_locked_toolarge_parts s cid rec now bytes hb hsize).1]
            rfl)
    · exact Or.inr
        (by rw [claim_locked_ok_eq s cid rec now bytes hb hsize]; rfl)

theorem claim_loop_claimed (fuel : Nat) (s : St) (cands : List String)
    (now x : String)
    (h : claimedId (claim_case_loop s cands now fuel).1 = some x) :
    ∃ k rec, lookupA s.pending k = some rec ∧ (x = k ∨ x = rec.id) := by
  induction fuel generalizing s cands with
  | zero => rw [claim_loop_zero] at h; simp [claimedId] at h
  | succ n ih =>
    cases cands with
    | nil => rw [claim_loop_nil] at h; simp [claimedId] at h
    | cons k rest =>
      cases hk : lookupA s.pending k with
      | none => rw [claim_loop_skip _ _ _ _ _ hk] at h; exact ih s rest h
      | some rec =>
        rw [claim_loop_win _ _ _ _ _ _ hk] at h
        rcases claimedId_claim_locked _ k rec now with hc | hc
        · exact ⟨k, rec, hk, Or.inl (Option.some.inj (h.symm.trans hc))⟩
        · exact ⟨k, rec, hk, Or.inr (Option.some.inj (h.symm.trans hc))⟩

theorem claim_not_offered (s : St) (c : String) (hwf : PartWF s)
    (hna : lookupA s.pending c = none) (cands : List String)
    (now : String) (fuel : Nat) :
    claimedId (claim_case_loop s cands now fuel).1 ≠ some c := by
  intro h
  obtain ⟨k, rec, hk, hx⟩ := claim_loop_claimed fuel s cands now c h
  have hkc : k ≠ c := fun he => by rw [he, hna] at hk; cases hk
  rcases hx with he | he
  · exact hkc he.symm
  · have hid : rec.id = k := hwf.1 (k, rec) (lookupA_mem hk)
    exact hkc (he.trans hid).symm

/-- C5: when a claim call wins the rename for a pending case `c` whose
referenced blob is absent, that same call quarantines the record — the
record ends in the `error` partition, out of both `pending` and
`processing` — sets the stub to `status="error"` with the quarantine note,
and returns an error result carrying the case's `id` and `receipt`; and for
any sequence of later operations (none re-submitting `c`), no future
`claim_case` call ever offers case `c` again. -/
theorem claim_quarantines_missing_blob (s : St) (c now : String)
    (rec : Record) (stub : Stub) (rest : List String) (fuel : Nat)
    (hwf : PartWF s)
    (hpend : lookupA s.pending c = some rec)
    (hblob : lookupA s.uploads rec.image_filename = none)
    (hstub : lookupA s.stubs c = some stub) :
    (claim_case_loop s (c :: rest) now (fuel + 1)).1
        = .err "Image file missing" c rec.receipt
    ∧ NotActive c (claim_case_loop s (c :: rest) now (fuel + 1)).2
    ∧ lookupA (claim_case_loop s (c :: rest) now (fuel + 1)).2.error c
        = some rec
    ∧ lookupA (claim_case_loop s (c :: rest) now (fuel + 1)).2.stubs c
        = some { stub with status := "error",
                           note := some "Image missing (quarantined)",
                           error_at := some now }
    ∧ ∀ ops : List Op, (∀ op ∈ ops, opSubmitsId c op = false) →
        ∀ cands now2 fuel2,
          claimedId (claim_case_loop
              (applyOps (claim_case_loop s (c :: rest) now (fuel + 1)).2 ops)
              cands now2 fuel2).1
            ≠ some c := by
  rw [claim_loop_win s c rest now fuel rec hpend]
  have parts := claim_locked_missing_parts
    { s with pending := eraseA s.pending c,
             processing := insertA s.processing c rec } c rec now hblob
  have hna : NotActive c (claim_locked
      { s with pending := eraseA s.pending c,
               processing := insertA s.processing c rec } c rec now).2 :=
    ⟨by rw [parts.2.1]; exact lookupA_eraseA_self _ _,
     by rw [parts.2.2.1]; exact lookupA_eraseA_self _ _⟩
  have hwfs1 : PartWF
      { s with pending := eraseA s.pending c,
               processing := insertA s.processing c rec } :=
    ⟨fun p hp => hwf.1 p (mem_eraseA hp).1,
     fun p hp => by
       rcases mem_insertA hp with he | hm
       · rw [he]; exact hwf.1 (c, rec) (lookupA_mem hpend)
       · exact hwf.2 p hm⟩
  refine ⟨parts.1, hna, ?_, ?_, ?_⟩
  · rw [parts.2.2.2.1]
    exact lookupA_insertA_self _ _ _
  · rw [parts.2.2.2.2]
    rw [update_stub_status_present
      { s with pending := eraseA s.pending c,
               processing := insertA s.processing c rec } c _ stub hstub]
    exact lookupA_insertA_self _ _ _
  · intro ops hops cands now2 fuel2
    have hwf1 := PartWF_claim_locked _ c rec now hwfs1
    obtain ⟨hna2, hwf2⟩ := invariants_applyOps _ c ops hops hwf1 hna
    exact claim_not_offered _ c hwf2 hna2.1 cands now2 fuel2

/-- Witness for C5: claiming the blob-less `cRec` quarantines it, and a
later claim call no longer offers it. -/
theorem claim_quarantines_missing_blob_w :
    (claim_case_loop sNoBlob ["c1"] "t1" 5).1
        = .err "Image file missing" "c1" cRec.receipt
    ∧ lookupA (claim_case_loop sNoBlob ["c1"] "t1" 5).2.error "c1"
        = some cRec
    ∧ claimedId (claim_case_loop
          (applyOps (claim_case_loop sNoBlob ["c1"] "t1" 5).2
            [Op.claim ["c1"] "t2"])
          ["c1"] "t3" 5).1
        ≠ some "c1" := by
  have h := claim_quarantines_missing_blob sNoBlob "c1" "t1" cRec cStub [] 4
    ⟨by decide, by decide⟩ (by decide) (by decide) (by decide)
  exact ⟨h.1, h.2.2.1, h.2.2.2.2 [Op.claim ["c1"] "t2"]
    (by intro op ho; rw [List.mem_singleton.mp ho]; decide) ["c1"] "t3" 5⟩

/-- C10: stub updates are best-effort and never fail the enclosing
operation.  `update_stub_status` on an absent stub file returns with no
effect (and, modelling its internal `try/except`, never raises); with the
stub absent, a winning claim still returns the full `ok` payload, a
receipt-correct confirm still reports `"Data purged"`, and a receipt-correct
abort still reports success — in each case the stubs partition is left
exactly as it was, recording nothing. -/
theorem stub_updates_best_effort (s : St) (id now : String) :
    (∀ f, lookupA s.stubs id = none → update_stub_status s id f = s)
    ∧ (∀ rec bytes rest fuel,
        lookupA s.pending id = some rec →
        lookupA s.uploads rec.image_filename = some bytes →
        ¬ bytes.length > MAX_CLAIM_IMAGE_BYTES →
        lookupA s.stubs id = none →
        (claim_case_loop s (id :: rest) now (fuel + 1)).1
            = .ok rec bytes (image_ext_of rec.image_filename)
        ∧ (claim_case_loop s (id :: rest) now (fuel + 1)).2.stubs = s.stubs)
    ∧ (∀ rec r, lookupA s.processing id = some rec → rec.receipt = r →
        lookupA s.stubs id = none →
        (confirm_case s id r now).1 = .ok "Data purged"
        ∧ (confirm_case s id r now).2.stubs = s.stubs)
    ∧ (∀ rec r, lookupA s.processing id = some rec → rec.receipt = r →
        lookupA s.stubs id = none →
        (abort_case s id r now).1 = .ok "Case moved back to pending"
        ∧ (abort_case s id r now).2.stubs = s.stubs) := by
  refine ⟨fun f h => update_stub_status_absent s id f h, ?_, ?_, ?_⟩
  · intro rec bytes rest fuel h1 h2 h3 h4
    rw [claim_loop_win s id rest now fuel rec h1]
    rw [claim_locked_ok_eq
      { s with pending := eraseA s.pending id,
               processing := insertA s.processing id rec } id rec now bytes
      h2 h3]
    rw [update_stub_status_absent
      { s with pending := eraseA s.pending id,
               processing := insertA s.processing id rec } id _ h4]
    exact ⟨rfl, rfl⟩
  · intro rec r h1 h2 h3
    rw [confirm_present_ok s id r now rec h1 h2]
    rw [update_stub_status_absent
      { s with uploads := eraseA s.uploads rec.image_filename,
               processing := eraseA s.processing id } id _ h3]
    exact ⟨rfl, rfl⟩
  · intro rec r h1 h2 h3
    rw [abort_ok s id r now rec h1 h2]
    rw [update_stub_status_absent
      { s with processing := eraseA s.processing id,
               pending := insertA s.pending id rec } id _ h3]
    exact ⟨rfl, rfl⟩

/-- Witness for C10: with no stub file, claim, confirm and abort all still
report success on concrete states, and the stubs partition stays empty. -/
theorem stub_updates_best_effort_w :
    (claim_case_loop sPendingNoStub ["c1"] "t1" 5).1
        = .ok cRec [1, 2, 3] (image_ext_of cRec.image_filename)
    ∧ (claim_case_loop sPendingNoStub ["c1"] "t1" 5).2.stubs
        = sPendingNoStub.stubs
    ∧ (confirm_case sProcNoStub "c1" "r1" "t1").1 = .ok "Data purged"
    ∧ (abort_case sProcNoStub "c1" "r1" "t1").1
        = .ok "Case moved back to pending" := by
  have h1 := (stub_updates_best_effort sPendingNoStub "c1" "t1").2.1 cRec
    [1, 2, 3] [] 4 (by decide) (by decide) (by decide) (by decide)
  have h2 := (stub_updates_best_effort sProcNoStub "c1" "t1").2.2.1 cRec "r1"
    (by decide) (by decide) (by decide)
  have h3 := (stub_updates_best_effort sProcNoStub "c1" "t1").2.2.2 cRec "r1"
    (by decide) (by decide) (by decide)
  exact ⟨h1.1, h1.2, h2.1, h3.1⟩

end DiaperAI
